import Mathlib

/-!
# Pawn-MC JNI bridge (`app/src/main/cpp/pawnc_jni.cpp`)

A shallow embedding of the bridge between the managed host and the native
Pawn compiler.  The translation unit keeps five file-level statics and
calls four external collaborators: the managed runtime (JavaVM / JNIEnv),
libc (`getcwd`, `chdir`, `dirname`, `strdup`), the Android log and the
compiler library (`pc_compile`, `pawnc_set_*_callback`).

* The statics, the process working directory, the attachment of the
  calling thread and the runtime's table of global references form `State`.
* What the collaborators answer is not decided by the bridge; it is taken
  as a parameter, `Host`, and every theorem holds for every `Host`.
* Every call the bridge makes to a collaborator is recorded as an `Event`,
  in program order.  An operation returns the events it issued, the state
  it leaves and what it returned.
* A directory is named by the path it was entered with: a successful
  `chdir(path)` makes `path` the working directory, and `getcwd` returns
  the name of the working directory.
* A null pointer or null reference is `none`.  Strings are identified with
  their contents (a C string and the managed string it was encoded from
  have the same contents); heap allocation is assumed to succeed.
-/

namespace PawnJni

/-! ## Constants of `jni.h` -/

/-- The constant `JNI_OK` -/
def JNI_OK : Int := 0
/-- The constant `JNI_EDETACHED` -/
def JNI_EDETACHED : Int := -2
/-- The constant `JNI_EVERSION` -/
def JNI_EVERSION : Int := -3
/-- The constant `JNI_VERSION_1_6` -/
def JNI_VERSION_1_6 : Nat := 0x00010006

/-! ## Data model -/

/-- A non-null `JavaVM *`. -/
abbrev JavaVM := Nat
/-- A non-null `JNIEnv *`. -/
abbrev JNIEnv := Nat
/-- A non-null object reference (`jobject`); for a global reference, its handle. -/
abbrev jobject := Nat
/-- A non-null `jmethodID`. -/
abbrev jmethodID := Nat
/-- A `jstring` reference or a `const char *`: `none` is null, `some s` has contents `s`. -/
abbrev JString := Option String

/-- An argument of `CallVoidMethod` after the receiver and the method. -/
inductive JValue where
  | int (n : Int)
  | str (s : JString)
  deriving DecidableEq, Repr

/-- Calls the bridge (or nobody) makes to its collaborators. -/
inductive Event where
  /-- The call `__android_log_print(ANDROID_LOG_INFO, LOG_TAG, ...)`, formatted. -/
  | logI (msg : String)
  /-- The call `__android_log_print(ANDROID_LOG_ERROR, LOG_TAG, ...)`, formatted. -/
  | logE (msg : String)
  /-- The call `JavaVM::GetEnv`, with the status it returned. -/
  | getEnv (vm : JavaVM) (version : Nat) (status : Int)
  /-- The call `JavaVM::AttachCurrentThread`, with the environment it wrote. -/
  | attachCurrentThread (vm : JavaVM) (env : Option JNIEnv)
  /-- The call `JavaVM::DetachCurrentThread`. -/
  | detachCurrentThread (vm : JavaVM)
  /-- The call `JNIEnv::GetObjectArrayElement(args, i)`. -/
  | getObjectArrayElement (i : Nat)
  /-- The call `JNIEnv::GetStringUTFChars(jstr, nullptr)`. -/
  | getStringUTFChars (jstr : JString)
  /-- The call `JNIEnv::ReleaseStringUTFChars(jstr, str)`. -/
  | releaseStringUTFChars (jstr : JString)
  /-- The call `JNIEnv::NewStringUTF(bytes)`. -/
  | newStringUTF (bytes : String)
  /-- The call `JNIEnv::DeleteLocalRef`. -/
  | deleteLocalRef
  /-- The call `JNIEnv::NewGlobalRef(obj)`, with the reference it returned. -/
  | newGlobalRef (obj : jobject) (ref : Option jobject)
  /-- The call `JNIEnv::DeleteGlobalRef(ref)`; `held` tells whether the runtime held `ref`. -/
  | deleteGlobalRef (ref : jobject) (held : Bool)
  /-- The call `JNIEnv::GetObjectClass(obj)`. -/
  | getObjectClass (obj : jobject)
  /-- The call `JNIEnv::GetMethodID(cls, name, sig)`, with the identifier it returned. -/
  | getMethodID (obj : jobject) (name sig : String) (mid : Option jmethodID)
  /-- The call `JNIEnv::CallVoidMethod(receiver, method, args...)`. -/
  | callVoidMethod (receiver : jobject) (method : jmethodID) (args : List JValue)
  /-- The call `getcwd(nullptr, 0)`, with the buffer it returned. -/
  | getcwd (result : Option String)
  /-- The call `chdir(path)`; `ok` is `true` when it returned 0. -/
  | chdir (path : String) (ok : Bool)
  /-- The call `pc_compile(argc, argv)`, entered in working directory `cwd`, returning
  `result`. -/
  | pc_compile (argc : Nat) (argv : List String) (cwd : String) (result : Int)
  /-- The call `pawnc_set_output_callback(cb)`; `registered` is `false` for `nullptr`. -/
  | pawnc_set_output_callback (registered : Bool)
  /-- The call `pawnc_set_error_callback(cb)`; `registered` is `false` for `nullptr`. -/
  | pawnc_set_error_callback (registered : Bool)
  /-- The call `pawnc_clear_callbacks()`. -/
  | pawnc_clear_callbacks
  deriving DecidableEq, Repr

/-- The file-level statics together with the parts of the process and of the
managed runtime the bridge reads or changes. -/
structure State where
  /-- The variable `static JavaVM *g_jvm` -/
  g_jvm : Option JavaVM
  /-- The variable `static jobject g_outputListener` -/
  g_outputListener : Option jobject
  /-- The variable `static jobject g_errorListener` -/
  g_errorListener : Option jobject
  /-- The variable `static jmethodID g_outputMethod` -/
  g_outputMethod : Option jmethodID
  /-- The variable `static jmethodID g_errorMethod` -/
  g_errorMethod : Option jmethodID
  /-- The working directory of the process. -/
  cwd : String
  /-- The environment of the calling thread when it is attached to the runtime. -/
  thread : Option JNIEnv
  /-- Handles of the global references the runtime currently holds. -/
  globals : List jobject
  deriving DecidableEq, Repr

/-- Answers of the external collaborators. -/
structure Host where
  /-- The function `dirname(3)` of libc. -/
  dirname : String → String
  /-- Whether `getcwd(nullptr, 0)`, called in working directory `cwd`, yields a
  buffer (it returns null when it fails). -/
  getcwdOk : (cwd : String) → Bool
  /-- Whether `chdir(path)`, called in working directory `cwd`, returns 0. -/
  chdirOk : (cwd : String) → (path : String) → Bool
  /-- The compiler entry point: from `argc`, `argv` and the working directory it
  is entered in, its return value and the working directory it leaves. -/
  pc_compile : (argc : Nat) → (argv : List String) → (cwd : String) → Int × String
  /-- Whether `GetEnv` accepts the requested interface version. -/
  supportsVersion : Nat → Bool
  /-- The environment `AttachCurrentThread` writes; `none` when attaching fails. -/
  attachEnv : Option JNIEnv
  /-- How many global references the runtime can hold; past it `NewGlobalRef`
  returns null. -/
  maxGlobalRefs : Nat
  /-- The function `GetMethodID` on the class of `obj`; null when the class has no such method. -/
  getMethodID : (obj : jobject) → (name sig : String) → Option jmethodID

/-- Why a native call does not return. -/
inductive Fault where
  /-- A null pointer was dereferenced. -/
  | nullDereference
  deriving DecidableEq, Repr

/-- How a native call ends: it returns a value, or a fault ends the process. -/
inductive Outcome (α : Type) where
  | returned (value : α)
  | crashed (fault : Fault)
  deriving DecidableEq, Repr

/-- What an operation did: the calls it issued in order, the state it left, and
how it ended. -/
structure Run (α : Type) where
  events : List Event
  state : State
  ret : Outcome α

/-! ## External library calls -/

/-- The call `JavaVM::GetEnv(&env, version)`: the status and the environment written. -/
def GetEnv (host : Host) (thread : Option JNIEnv) (version : Nat) : Int × Option JNIEnv :=
  match thread with
  | none => (JNI_EDETACHED, none)
  | some e => if host.supportsVersion version then (JNI_OK, some e) else (JNI_EVERSION, none)

/-- The call `JNIEnv::GetStringUTFChars(jstr, nullptr)`: null for a null reference. -/
def GetStringUTFChars (jstr : JString) : Option String := jstr

/-- The call `strdup(s)`: reads `s`, so a null `s` is a null dereference. -/
def strdup (s : Option String) : Outcome String :=
  match s with
  | none => .crashed .nullDereference
  | some s => .returned s

/-- The call `JNIEnv::GetObjectArrayElement(args, i)` for `i` within the array. -/
def GetObjectArrayElement (args : List JString) (i : Nat) : JString :=
  args[i]?.join

/-- The call `getcwd(nullptr, 0)`: a fresh buffer naming the working directory, or null. -/
def getcwd (host : Host) (cwd : String) : Option String :=
  if host.getcwdOk cwd then some cwd else none

/-- The call `chdir(path)`: whether it returned 0, and the working directory afterwards. -/
def chdir (host : Host) (cwd path : String) : Bool × String :=
  if host.chdirOk cwd path then (true, path) else (false, cwd)

/-- A handle the runtime does not hold. -/
def freshRef (globals : List jobject) : jobject := globals.foldr max 0 + 1

/-- The call `JNIEnv::NewGlobalRef(obj)`: the reference returned and the table afterwards. -/
def NewGlobalRef (host : Host) (globals : List jobject) : Option jobject × List jobject :=
  if globals.length < host.maxGlobalRefs then
    (some (freshRef globals), freshRef globals :: globals)
  else (none, globals)

/-- The call `JNIEnv::DeleteGlobalRef(ref)`: whether `ref` was held and the table afterwards. -/
def DeleteGlobalRef (globals : List jobject) (ref : jobject) : Bool × List jobject :=
  (decide (ref ∈ globals), globals.erase ref)

/-! ## `getJNIEnv` -/

/-- The function `static JNIEnv* getJNIEnv()` -/
def getJNIEnv (host : Host) (st : State) : List Event × State × Option JNIEnv :=
  match st.g_jvm with
  | none => ([], st, none)
  | some vm =>
    let (status, env) := GetEnv host st.thread JNI_VERSION_1_6
    if status = JNI_EDETACHED then
      let env1 := host.attachEnv
      ([.getEnv vm JNI_VERSION_1_6 status, .attachCurrentThread vm env1],
        { st with thread := env1 }, env1)
    else
      ([.getEnv vm JNI_VERSION_1_6 status], st, env)

/-! ## Relay callbacks -/

/-- The function `static void nativeOutputCallback(const char *message)` -/
def nativeOutputCallback (host : Host) (st : State) (message : Option String) :
    List Event × State :=
  let (ev, st1, env) := getJNIEnv host st
  match env, st1.g_outputListener, st1.g_outputMethod with
  | some _, some listener, some method =>
    let jmsg := message.getD ""
    (ev ++ [.newStringUTF jmsg,
            .callVoidMethod listener method [.str (some jmsg)],
            .deleteLocalRef], st1)
  | _, _, _ => (ev, st1)

/-- The function `static void nativeErrorCallback(int number, const char *filename, int firstline,
int lastline, const char *message)` -/
def nativeErrorCallback (host : Host) (st : State) (number : Int) (filename : Option String)
    (firstline lastline : Int) (message : Option String) : List Event × State :=
  let (ev, st1, env) := getJNIEnv host st
  match env, st1.g_errorListener, st1.g_errorMethod with
  | some _, some listener, some method =>
    let jfilename := filename.getD ""
    let jmessage := message.getD ""
    (ev ++ [.newStringUTF jfilename, .newStringUTF jmessage,
            .callVoidMethod listener method
              [.int number, .str (some jfilename), .int firstline, .int lastline,
               .str (some jmessage)],
            .deleteLocalRef, .deleteLocalRef], st1)
  | _, _, _ => (ev, st1)

/-! ## `JNI_OnLoad` -/

/-- The function `JNIEXPORT jint JNI_OnLoad(JavaVM *vm, void *reserved)` -/
def JNI_OnLoad (st : State) (vm : Option JavaVM) : State × Nat :=
  ({ st with g_jvm := vm }, JNI_VERSION_1_6)

/-! ## `nativeCompile` -/

/-- The loop `for (int i = 0; i < argc; i++)` that fills `argv`: `n` iterations are
left, starting at index `i`; `argv` holds the entries `0 .. i-1` already written.
Returns the calls made and the filled vector, or the fault that stopped the loop. -/
def fillArgv (args : List JString) : (n : Nat) → (i : Nat) → (argv : List String) →
    List Event × Outcome (List String)
  | 0, _, argv => ([], .returned argv)
  | n + 1, i, argv =>
    let jstr := GetObjectArrayElement args i
    let str := GetStringUTFChars jstr
    match strdup str with
    | .crashed f => ([.getObjectArrayElement i, .getStringUTFChars jstr], .crashed f)
    | .returned s =>
      let (ev, r) := fillArgv args n (i + 1) (argv ++ [s])
      ([.getObjectArrayElement i, .getStringUTFChars jstr,
        .releaseStringUTFChars jstr, .deleteLocalRef] ++ ev, r)

/-- The block `if (argc > 1) { ... chdir(dirname(argv[argc - 1])) ... }`: the calls
made and the working directory afterwards. -/
def enterSourceDir (host : Host) (cwd : String) (argc : Nat) (argv : List String) :
    List Event × String :=
  if argc > 1 then
    let sourcePathCopy := argv[argc - 1]?.getD ""
    let sourceDir := host.dirname sourcePathCopy
    match chdir host cwd sourceDir with
    | (true, cwd1) =>
      ([.logI ("Changing to directory: " ++ sourceDir), .chdir sourceDir true], cwd1)
    | (false, cwd1) =>
      ([.logI ("Changing to directory: " ++ sourceDir), .chdir sourceDir false,
        .logE ("Failed to chdir to " ++ sourceDir)], cwd1)
  else ([], cwd)

/-- The block `if (oldCwd) { chdir(oldCwd); free(oldCwd); }`: the calls made and the
working directory afterwards. -/
def restoreCwd (host : Host) (cwd : String) (oldCwd : Option String) : List Event × String :=
  match oldCwd with
  | none => ([], cwd)
  | some old =>
    let (ok, cwd1) := chdir host cwd old
    ([.chdir old ok], cwd1)

/-- The function `Java_com_rvdjv_pawnmc_PawnCompiler_nativeCompile(env, thiz, args)` -/
def nativeCompile (host : Host) (st : State) (args : List JString) : Run Int :=
  let argc := args.length
  match fillArgv args argc 0 [] with
  | (ev0, .crashed f) => { events := ev0, state := st, ret := .crashed f }
  | (ev0, .returned argv) =>
    let oldCwd := getcwd host st.cwd
    let (ev1, cwd1) := enterSourceDir host st.cwd argc argv
    let (result, cwd2) := host.pc_compile argc argv cwd1
    let (ev2, cwd3) := restoreCwd host cwd2 oldCwd
    { events := ev0 ++ [.getcwd oldCwd] ++ ev1 ++
        [.logI ("Calling pc_compile with " ++ toString argc ++ " args"),
         .pc_compile argc argv cwd1 result,
         .logI ("pc_compile returned " ++ toString result)] ++ ev2,
      state := { st with cwd := cwd3 },
      ret := .returned result }

/-! ## Listener registration -/

/-- The block `if (g) { env->DeleteGlobalRef(g); g = nullptr; }` applied to the slot
`slot`: the calls made and the runtime's table afterwards (the slot itself is null
afterwards). -/
def releaseSlot (globals : List jobject) (slot : Option jobject) :
    List Event × List jobject :=
  match slot with
  | none => ([], globals)
  | some g =>
    let (held, globals1) := DeleteGlobalRef globals g
    ([.deleteGlobalRef g held], globals1)

/-- The function
`Java_com_rvdjv_pawnmc_PawnCompiler_nativeSetOutputCallback(env, thiz, listener)` -/
def nativeSetOutputCallback (host : Host) (st : State) (listener : Option jobject) :
    List Event × State :=
  let (ev1, globals1) := releaseSlot st.globals st.g_outputListener
  let st1 := { st with g_outputListener := none, globals := globals1 }
  match listener with
  | some l =>
    let (ref, globals2) := NewGlobalRef host st1.globals
    let mid := host.getMethodID l "onOutput" "(Ljava/lang/String;)V"
    (ev1 ++ [.newGlobalRef l ref, .getObjectClass l,
             .getMethodID l "onOutput" "(Ljava/lang/String;)V" mid,
             .deleteLocalRef, .pawnc_set_output_callback true],
      { st1 with g_outputListener := ref, g_outputMethod := mid, globals := globals2 })
  | none => (ev1 ++ [.pawnc_set_output_callback false], st1)

/-- The function
`Java_com_rvdjv_pawnmc_PawnCompiler_nativeSetErrorCallback(env, thiz, listener)` -/
def nativeSetErrorCallback (host : Host) (st : State) (listener : Option jobject) :
    List Event × State :=
  let (ev1, globals1) := releaseSlot st.globals st.g_errorListener
  let st1 := { st with g_errorListener := none, globals := globals1 }
  match listener with
  | some l =>
    let (ref, globals2) := NewGlobalRef host st1.globals
    let mid := host.getMethodID l "onError" "(ILjava/lang/String;IILjava/lang/String;)V"
    (ev1 ++ [.newGlobalRef l ref, .getObjectClass l,
             .getMethodID l "onError" "(ILjava/lang/String;IILjava/lang/String;)V" mid,
             .deleteLocalRef, .pawnc_set_error_callback true],
      { st1 with g_errorListener := ref, g_errorMethod := mid, globals := globals2 })
  | none => (ev1 ++ [.pawnc_set_error_callback false], st1)

/-- The function `Java_com_rvdjv_pawnmc_PawnCompiler_nativeClearCallbacks(env, thiz)` -/
def nativeClearCallbacks (st : State) : List Event × State :=
  let (ev1, globals1) := releaseSlot st.globals st.g_outputListener
  let (ev2, globals2) := releaseSlot globals1 st.g_errorListener
  ([.pawnc_clear_callbacks] ++ ev1 ++ ev2,
    { st with g_outputListener := none, g_errorListener := none,
              g_outputMethod := none, g_errorMethod := none, globals := globals2 })

/-! ## The bridge as a transition system -/

/-- The entry points of the bridge with their arguments. -/
inductive Op where
  | JNI_OnLoad (vm : Option JavaVM)
  | nativeCompile (args : List JString)
  | nativeSetOutputCallback (listener : Option jobject)
  | nativeSetErrorCallback (listener : Option jobject)
  | nativeClearCallbacks
  | nativeOutputCallback (message : Option String)
  | nativeErrorCallback (number : Int) (filename : Option String) (firstline lastline : Int)
      (message : Option String)

/-- One entry point run in state `st`: the calls it issues and the state it leaves. -/
def step (host : Host) (st : State) : Op → List Event × State
  | .JNI_OnLoad vm => ([], (JNI_OnLoad st vm).1)
  | .nativeCompile args => ((nativeCompile host st args).events, (nativeCompile host st args).state)
  | .nativeSetOutputCallback l => nativeSetOutputCallback host st l
  | .nativeSetErrorCallback l => nativeSetErrorCallback host st l
  | .nativeClearCallbacks => nativeClearCallbacks st
  | .nativeOutputCallback m => nativeOutputCallback host st m
  | .nativeErrorCallback n f fl ll m => nativeErrorCallback host st n f fl ll m

/-- The three operations on the listener slots. -/
inductive ListenerOp where
  | setOutput (listener : Option jobject)
  | setError (listener : Option jobject)
  | clear

/-- A listener operation as an entry point. -/
def ListenerOp.toOp : ListenerOp → Op
  | .setOutput l => .nativeSetOutputCallback l
  | .setError l => .nativeSetErrorCallback l
  | .clear => .nativeClearCallbacks

/-- A sequence of listener operations run from `st`: all calls issued, in order,
and the final state. -/
def runListenerOps (host : Host) (st : State) : List ListenerOp → List Event × State
  | [] => ([], st)
  | op :: ops =>
    let (ev1, st1) := step host st op.toOp
    let (ev2, st2) := runListenerOps host st1 ops
    (ev1 ++ ev2, st2)

/-! ## Observations on a list of events -/

/-- The `pc_compile` calls: `(argc, argv, cwd at entry, result)`. -/
def pcCalls (evs : List Event) : List (Nat × List String × String × Int) :=
  evs.filterMap fun e =>
    match e with
    | .pc_compile argc argv cwd r => some (argc, argv, cwd, r)
    | _ => none

/-- The `chdir` calls: `(path, succeeded)`. -/
def chdirCalls (evs : List Event) : List (String × Bool) :=
  evs.filterMap fun e =>
    match e with
    | .chdir p ok => some (p, ok)
    | _ => none

/-- The messages logged at error priority. -/
def errorLogs (evs : List Event) : List String :=
  evs.filterMap fun e =>
    match e with
    | .logE m => some m
    | _ => none

/-- The listener methods invoked: `(receiver, method, arguments)`. -/
def methodCalls (evs : List Event) : List (jobject × jmethodID × List JValue) :=
  evs.filterMap fun e =>
    match e with
    | .callVoidMethod l m a => some (l, m, a)
    | _ => none

/-- The handles passed to `DeleteGlobalRef`. -/
def releasedRefs (evs : List Event) : List jobject :=
  evs.filterMap fun e =>
    match e with
    | .deleteGlobalRef r _ => some r
    | _ => none

/-- The handles `NewGlobalRef` returned (a null return creates nothing). -/
def createdRefs (evs : List Event) : List jobject :=
  evs.filterMap fun e =>
    match e with
    | .newGlobalRef _ (some r) => some r
    | _ => none

/-- The `AttachCurrentThread` calls. -/
def attachCalls (evs : List Event) : List JavaVM :=
  evs.filterMap fun e =>
    match e with
    | .attachCurrentThread vm _ => some vm
    | _ => none

/-- The `DetachCurrentThread` calls. -/
def detachCalls (evs : List Event) : List JavaVM :=
  evs.filterMap fun e =>
    match e with
    | .detachCurrentThread vm => some vm
    | _ => none

/-- How many of the two listener slots hold a reference. -/
def heldSlots (st : State) : Nat :=
  st.g_outputListener.toList.length + st.g_errorListener.toList.length

/-- The calls made before the compiler is entered. -/
def beforeCompile (evs : List Event) : List Event :=
  evs.takeWhile fun e =>
    match e with
    | .pc_compile _ _ _ _ => false
    | _ => true

/-- The calls the conversion loop makes for the strings `l` stored from index `i` on
when none of them is null. -/
def marshalCalls : Nat → List String → List Event
  | _, [] => []
  | i, s :: l =>
    [.getObjectArrayElement i, .getStringUTFChars (some s),
     .releaseStringUTFChars (some s), .deleteLocalRef] ++ marshalCalls (i + 1) l

/-- The runtime holds the reference of every non-null listener slot, and the two
slots hold different references. -/
def SlotsHeld (st : State) : Prop :=
  (∀ r, st.g_outputListener = some r → r ∈ st.globals) ∧
  (∀ r, st.g_errorListener = some r → r ∈ st.globals) ∧
  (∀ a b, st.g_outputListener = some a → st.g_errorListener = some b → a ≠ b)

/-- Every `DeleteGlobalRef` among `evs` was given a reference the runtime held. -/
def ReleasesHeld (evs : List Event) : Prop :=
  ∀ ref held, Event.deleteGlobalRef ref held ∈ evs → held = true

/-! ## A concrete host, for evaluating the definitions -/

/-- The characters before the last `/` of a path, `.` when there is none and `/`
when only the leading one is left. -/
def sampleDirname (p : String) : String :=
  match (p.data.reverse.dropWhile (fun c => c != '/')).drop 1 with
  | [] => if p.data.head? = some '/' then "/" else "."
  | d => String.mk d.reverse

/-- A host with directories `/sdcard/pawn`, `/data/app` and `/`, a compiler that
returns the number of arguments it got and stays where it is, room for eight global
references, and listener classes that declare both callback methods. -/
def sampleHost : Host where
  dirname := sampleDirname
  getcwdOk := fun _ => true
  chdirOk := fun _ p => decide (p ∈ ["/sdcard/pawn", "/data/app", "/"])
  pc_compile := fun argc _ cwd => (argc, cwd)
  supportsVersion := fun _ => true
  attachEnv := some 7
  maxGlobalRefs := 8
  getMethodID := fun obj name _ => some (obj + name.length)

/-- The state `st` once an output listener (object 40) and then an error listener
(object 41) have been registered on the sample host. -/
def sampleListening (st : State) : State :=
  (nativeSetErrorCallback sampleHost (nativeSetOutputCallback sampleHost st (some 40)).2
    (some 41)).2

/-- The state after loading: the statics as initialised, `g_jvm` set by `JNI_OnLoad`,
the calling thread attached, working directory `/data/app`. -/
def sampleState : State where
  g_jvm := some 1
  g_outputListener := none
  g_errorListener := none
  g_outputMethod := none
  g_errorMethod := none
  cwd := "/data/app"
  thread := some 3
  globals := []

end PawnJni



namespace PawnJni

/-! ## The conversion loop -/

theorem getObjectArrayElement_strings (pre rest : List String) (s : String) :
    GetObjectArrayElement ((pre ++ s :: rest).map some) pre.length = some s := by
  have h : ((pre ++ s :: rest).map some)[pre.length]? = some (some s) := by
    rw [List.map_append, List.getElem?_append_right (by simp)]
    simp
  simp only [GetObjectArrayElement, h]
  rfl

theorem fillArgv_strings (rest : List String) :
    ∀ pre acc : List String,
      fillArgv ((pre ++ rest).map some) rest.length pre.length acc
        = (marshalCalls pre.length rest, .returned (acc ++ rest)) := by
  induction rest with
  | nil => intro pre acc; simp [fillArgv, marshalCalls]
  | cons s rest ih =>
    intro pre acc
    have h := ih (pre ++ [s]) (acc ++ [s])
    simp only [List.append_assoc, List.singleton_append, List.length_append,
      List.length_singleton] at h
    simp only [List.length_cons, fillArgv, getObjectArrayElement_strings, GetStringUTFChars,
      strdup, h, marshalCalls]

theorem fillArgv_crashes (args : List JString) :
    ∀ (n i : Nat) (acc : List String) (j : Nat), i ≤ j → j < i + n →
      GetObjectArrayElement args j = none →
      (fillArgv args n i acc).2 = .crashed .nullDereference := by
  intro n
  induction n with
  | zero => intro i acc j h1 h2; omega
  | succ n ih =>
    intro i acc j h1 h2 hj
    unfold fillArgv
    cases hi : GetObjectArrayElement args i with
    | none => simp [GetStringUTFChars, strdup]
    | some s =>
      have hne : i ≠ j := by
        intro h; subst h; rw [hi] at hj; cases hj
      have := ih (i + 1) (acc ++ [s]) j (by omega) (by omega) hj
      simp [GetStringUTFChars, strdup, this]

theorem strings_of_nonnull (args : List JString) (h : ∀ a ∈ args, a ≠ none) :
    ∃ argv : List String, args = argv.map some := by
  induction args with
  | nil => exact ⟨[], rfl⟩
  | cons a args ih =>
    obtain ⟨argv, hargv⟩ := ih (fun b hb => h b (List.mem_cons_of_mem _ hb))
    cases a with
    | none => exact absurd rfl (h none (List.mem_cons_self _ _))
    | some s => exact ⟨s :: argv, by simp [hargv]⟩

/-! ## Observations on the parts of `nativeCompile` -/

theorem pcCalls_append (a b : List Event) : pcCalls (a ++ b) = pcCalls a ++ pcCalls b := by
  simp [pcCalls]

theorem chdirCalls_append (a b : List Event) :
    chdirCalls (a ++ b) = chdirCalls a ++ chdirCalls b := by
  simp [chdirCalls]

theorem errorLogs_append (a b : List Event) :
    errorLogs (a ++ b) = errorLogs a ++ errorLogs b := by
  simp [errorLogs]

theorem pcCalls_fillArgv (args : List JString) :
    ∀ (n i : Nat) (acc : List String), pcCalls (fillArgv args n i acc).1 = [] := by
  intro n
  induction n with
  | zero => intro i acc; rfl
  | succ n ih =>
    intro i acc
    cases hs : strdup (GetStringUTFChars (GetObjectArrayElement args i)) with
    | crashed f => simp only [fillArgv, hs]; rfl
    | returned s =>
      have := ih (i + 1) (acc ++ [s])
      simp only [fillArgv, hs, pcCalls_append, this]
      rfl

theorem errorLogs_fillArgv (args : List JString) :
    ∀ (n i : Nat) (acc : List String), errorLogs (fillArgv args n i acc).1 = [] := by
  intro n
  induction n with
  | zero => intro i acc; rfl
  | succ n ih =>
    intro i acc
    cases hs : strdup (GetStringUTFChars (GetObjectArrayElement args i)) with
    | crashed f => simp only [fillArgv, hs]; rfl
    | returned s =>
      have := ih (i + 1) (acc ++ [s])
      simp only [fillArgv, hs, errorLogs_append, this]
      rfl

theorem pcCalls_marshalCalls (l : List String) : ∀ i, pcCalls (marshalCalls i l) = [] := by
  induction l with
  | nil => intro i; rfl
  | cons s l ih => intro i; simp only [marshalCalls, pcCalls_append, ih]; rfl

theorem chdirCalls_marshalCalls (l : List String) :
    ∀ i, chdirCalls (marshalCalls i l) = [] := by
  induction l with
  | nil => intro i; rfl
  | cons s l ih => intro i; simp only [marshalCalls, chdirCalls_append, ih]; rfl

theorem errorLogs_marshalCalls (l : List String) :
    ∀ i, errorLogs (marshalCalls i l) = [] := by
  induction l with
  | nil => intro i; rfl
  | cons s l ih => intro i; simp only [marshalCalls, errorLogs_append, ih]; rfl

theorem beforeCompile_marshalCalls (l : List String) (rest : List Event) :
    ∀ i, beforeCompile (marshalCalls i l ++ rest) = marshalCalls i l ++ beforeCompile rest := by
  induction l with
  | nil => intro i; rfl
  | cons s l ih =>
    intro i
    have h := ih (i + 1)
    simp only [beforeCompile] at h ⊢
    simp [marshalCalls, List.takeWhile, h]

theorem enterSourceDir_short (host : Host) (cwd : String) (argc : Nat) (argv : List String)
    (h : argc ≤ 1) : enterSourceDir host cwd argc argv = ([], cwd) := by
  simp only [enterSourceDir, gt_iff_lt, Nat.not_lt.mpr h, if_false]

theorem enterSourceDir_ok (host : Host) (cwd : String) (argc : Nat) (argv : List String)
    (h : 1 < argc) (hok : host.chdirOk cwd (host.dirname (argv[argc - 1]?.getD "")) = true) :
    enterSourceDir host cwd argc argv =
      ([.logI ("Changing to directory: " ++ host.dirname (argv[argc - 1]?.getD "")),
        .chdir (host.dirname (argv[argc - 1]?.getD "")) true],
        host.dirname (argv[argc - 1]?.getD "")) := by
  simp only [enterSourceDir, gt_iff_lt, h, if_true, chdir, hok]

theorem enterSourceDir_fail (host : Host) (cwd : String) (argc : Nat) (argv : List String)
    (h : 1 < argc) (hok : host.chdirOk cwd (host.dirname (argv[argc - 1]?.getD "")) = false) :
    enterSourceDir host cwd argc argv =
      ([.logI ("Changing to directory: " ++ host.dirname (argv[argc - 1]?.getD "")),
        .chdir (host.dirname (argv[argc - 1]?.getD "")) false,
        .logE ("Failed to chdir to " ++ host.dirname (argv[argc - 1]?.getD ""))], cwd) := by
  simp only [enterSourceDir, gt_iff_lt, h, if_true, chdir, hok]
  rfl

theorem pcCalls_enterSourceDir (host : Host) (cwd : String) (argc : Nat) (argv : List String) :
    pcCalls (enterSourceDir host cwd argc argv).1 = [] := by
  by_cases h : 1 < argc
  · cases hok : host.chdirOk cwd (host.dirname (argv[argc - 1]?.getD ""))
    · rw [enterSourceDir_fail host cwd argc argv h hok]; rfl
    · rw [enterSourceDir_ok host cwd argc argv h hok]; rfl
  · rw [enterSourceDir_short host cwd argc argv (Nat.not_lt.mp h)]; rfl

theorem pcCalls_restoreCwd (host : Host) (cwd : String) (old : Option String) :
    pcCalls (restoreCwd host cwd old).1 = [] := by
  cases old <;> rfl

theorem errorLogs_restoreCwd (host : Host) (cwd : String) (old : Option String) :
    errorLogs (restoreCwd host cwd old).1 = [] := by
  cases old <;> rfl

theorem beforeCompile_enterSourceDir (host : Host) (cwd : String) (argc : Nat)
    (argv : List String) (rest : List Event) :
    beforeCompile ((enterSourceDir host cwd argc argv).1 ++ rest)
      = (enterSourceDir host cwd argc argv).1 ++ beforeCompile rest := by
  by_cases h : 1 < argc
  · cases hok : host.chdirOk cwd (host.dirname (argv[argc - 1]?.getD ""))
    · rw [enterSourceDir_fail host cwd argc argv h hok]; rfl
    · rw [enterSourceDir_ok host cwd argc argv h hok]; rfl
  · rw [enterSourceDir_short host cwd argc argv (Nat.not_lt.mp h)]; rfl

/-- The run of `nativeCompile` on an array none of whose elements is null. -/
theorem nativeCompile_strings (host : Host) (st : State) (argv : List String) :
    nativeCompile host st (argv.map some) =
      { events := marshalCalls 0 argv ++ [.getcwd (getcwd host st.cwd)] ++
          (enterSourceDir host st.cwd argv.length argv).1 ++
          [.logI ("Calling pc_compile with " ++ toString argv.length ++ " args"),
           .pc_compile argv.length argv (enterSourceDir host st.cwd argv.length argv).2
             (host.pc_compile argv.length argv
               (enterSourceDir host st.cwd argv.length argv).2).1,
           .logI ("pc_compile returned " ++ toString (host.pc_compile argv.length argv
               (enterSourceDir host st.cwd argv.length argv).2).1)] ++
          (restoreCwd host (host.pc_compile argv.length argv
               (enterSourceDir host st.cwd argv.length argv).2).2 (getcwd host st.cwd)).1,
        state := { st with cwd := (restoreCwd host (host.pc_compile argv.length argv
               (enterSourceDir host st.cwd argv.length argv).2).2 (getcwd host st.cwd)).2 },
        ret := .returned (host.pc_compile argv.length argv
               (enterSourceDir host st.cwd argv.length argv).2).1 } := by
  have h := fillArgv_strings argv [] []
  simp only [List.nil_append, List.length_nil] at h
  simp only [nativeCompile, List.length_map, h]

theorem getLast_strings (argv : List String) (p : String)
    (h : (argv.map some).getLast? = some (some p)) : argv[argv.length - 1]? = some p := by
  rw [List.getLast?_eq_getElem?] at h
  simpa using h

/-! ## `nativeCompile`: return code, argument vector, working directory -/

/-- C1: the compiler's return code is passed through unchanged.  For every argument
array, whenever `pc_compile` is called during `nativeCompile` and returns `r`,
`nativeCompile` returns exactly `r`; and for every array without a null element
`pc_compile` is called exactly once and `nativeCompile` returns its value, whatever
`chdir` answered. -/
theorem nativeCompile_passes_return_code (host : Host) (st : State) (args : List JString) :
    (∀ c ∈ pcCalls (nativeCompile host st args).events,
        (nativeCompile host st args).ret = .returned c.2.2.2) ∧
    ((∀ a ∈ args, a ≠ none) →
      ∃ argv cwd,
        pcCalls (nativeCompile host st args).events
          = [(args.length, argv, cwd, (host.pc_compile args.length argv cwd).1)] ∧
        (nativeCompile host st args).ret
          = .returned (host.pc_compile args.length argv cwd).1) := by
  constructor
  · intro c hc
    unfold nativeCompile at hc ⊢
    have hfill := pcCalls_fillArgv args args.length 0 []
    rcases hf : fillArgv args args.length 0 [] with ⟨ev0, r0⟩
    rw [hf] at hfill
    cases r0 with
    | crashed f =>
      simp only [hf] at hc
      rw [show pcCalls ev0 = [] from hfill] at hc
      cases hc
    | returned argv =>
      simp only [hf] at hc ⊢
      simp only [pcCalls_append, show pcCalls ev0 = [] from hfill, pcCalls_enterSourceDir,
        pcCalls_restoreCwd, List.nil_append, List.append_nil] at hc
      have hc2 : c = (args.length, argv, (enterSourceDir host st.cwd args.length argv).2,
          (host.pc_compile args.length argv
            (enterSourceDir host st.cwd args.length argv).2).1) := by
        simpa [pcCalls] using hc
      rw [hc2]
  · intro hnn
    obtain ⟨argv, rfl⟩ := strings_of_nonnull args hnn
    refine ⟨argv, (enterSourceDir host st.cwd argv.length argv).2, ?_, ?_⟩
    · rw [nativeCompile_strings]
      simp only [pcCalls_append, pcCalls_marshalCalls, pcCalls_enterSourceDir,
        pcCalls_restoreCwd, List.nil_append, List.append_nil, List.length_map]
      rfl
    · rw [nativeCompile_strings, List.length_map]

/-- C1 at a concrete call: two arguments, the source directory cannot be entered. -/
theorem nativeCompile_passes_return_code_witness :
    ∃ argv cwd,
      pcCalls (nativeCompile sampleHost sampleState
          [some "pawncc", some "/nowhere/a.pwn"]).events
        = [(2, argv, cwd, (sampleHost.pc_compile 2 argv cwd).1)] ∧
      (nativeCompile sampleHost sampleState [some "pawncc", some "/nowhere/a.pwn"]).ret
        = .returned (sampleHost.pc_compile 2 argv cwd).1 :=
  (nativeCompile_passes_return_code sampleHost sampleState
    [some "pawncc", some "/nowhere/a.pwn"]).2 (by decide)

/-- C2: for every argument array of non-null strings, `pc_compile` is called once, with
`argc` the length of the array and an `argv` whose entry `i` has the contents of
element `i`, for every `i < argc`: nothing is added, dropped, duplicated or reordered. -/
theorem nativeCompile_argv_round_trip (host : Host) (st : State) (args : List JString)
    (hnn : ∀ a ∈ args, a ≠ none) :
    ∃ argv cwd r,
      pcCalls (nativeCompile host st args).events = [(args.length, argv, cwd, r)] ∧
      argv.length = args.length ∧
      (∀ i, i < args.length → args[i]? = some argv[i]?) ∧
      argv.map some = args := by
  obtain ⟨argv, rfl⟩ := strings_of_nonnull args hnn
  refine ⟨argv, (enterSourceDir host st.cwd argv.length argv).2,
    (host.pc_compile argv.length argv (enterSourceDir host st.cwd argv.length argv).2).1,
    ?_, ?_, ?_, rfl⟩
  · rw [nativeCompile_strings]
    simp only [pcCalls_append, pcCalls_marshalCalls, pcCalls_enterSourceDir,
      pcCalls_restoreCwd, List.nil_append, List.append_nil, List.length_map]
    rfl
  · simp
  · intro i hi
    rw [List.length_map] at hi
    simp [List.getElem?_eq_getElem hi]

/-- C2 at a concrete call with three arguments. -/
theorem nativeCompile_argv_round_trip_witness :
    ∃ argv cwd r,
      pcCalls (nativeCompile sampleHost sampleState
          [some "pawncc", some "-i/sdcard/include", some "/sdcard/pawn/a.pwn"]).events
        = [([some "pawncc", some "-i/sdcard/include", some "/sdcard/pawn/a.pwn"].length,
            argv, cwd, r)] ∧
      argv.length
        = [some "pawncc", some "-i/sdcard/include", some "/sdcard/pawn/a.pwn"].length ∧
      (∀ i, i < [some "pawncc", some "-i/sdcard/include", some "/sdcard/pawn/a.pwn"].length →
        [some "pawncc", some "-i/sdcard/include", some "/sdcard/pawn/a.pwn"][i]?
          = some argv[i]?) ∧
      argv.map some = [some "pawncc", some "-i/sdcard/include", some "/sdcard/pawn/a.pwn"] :=
  nativeCompile_argv_round_trip sampleHost sampleState
    [some "pawncc", some "-i/sdcard/include", some "/sdcard/pawn/a.pwn"] (by decide)

/-- C5: for an array of non-null strings with at least two elements whose last element
is `p`, when `chdir(dirname(p))` succeeds it is the one directory change made before
the compiler is entered and `pc_compile` is entered in `dirname(p)`; for an array with
fewer than two elements no `chdir` is issued before the compiler is entered and
`pc_compile` is entered in the caller's working directory. -/
theorem nativeCompile_compiles_in_source_dir (host : Host) (st : State)
    (args : List JString) (hnn : ∀ a ∈ args, a ≠ none) :
    (∀ p, 2 ≤ args.length → args.getLast? = some (some p) →
      host.chdirOk st.cwd (host.dirname p) = true →
      (∃ argv r, pcCalls (nativeCompile host st args).events
          = [(args.length, argv, host.dirname p, r)]) ∧
      chdirCalls (beforeCompile (nativeCompile host st args).events)
        = [(host.dirname p, true)]) ∧
    (args.length < 2 →
      (∃ argv r, pcCalls (nativeCompile host st args).events
          = [(args.length, argv, st.cwd, r)]) ∧
      chdirCalls (beforeCompile (nativeCompile host st args).events) = []) := by
  obtain ⟨argv, rfl⟩ := strings_of_nonnull args hnn
  rw [nativeCompile_strings]
  simp only [List.length_map, pcCalls_append, pcCalls_marshalCalls, pcCalls_enterSourceDir,
    pcCalls_restoreCwd, List.nil_append, List.append_nil, List.append_assoc,
    beforeCompile_marshalCalls, chdirCalls_append, chdirCalls_marshalCalls]
  constructor
  · intro p h2 hlast hok
    have hp := getLast_strings argv p hlast
    have hok2 : host.chdirOk st.cwd (host.dirname (argv[argv.length - 1]?.getD "")) = true := by
      rw [hp]; exact hok
    have he := enterSourceDir_ok host st.cwd argv.length argv (by omega) hok2
    rw [hp] at he
    simp only [he]
    exact ⟨⟨argv, _, rfl⟩, rfl⟩
  · intro h2
    have he := enterSourceDir_short host st.cwd argv.length argv (by omega)
    simp only [he]
    exact ⟨⟨argv, _, rfl⟩, rfl⟩

/-- C5 at a concrete call whose source file lies in `/sdcard/pawn`. -/
theorem nativeCompile_compiles_in_source_dir_witness :
    (∃ argv r, pcCalls (nativeCompile sampleHost sampleState
        [some "pawncc", some "/sdcard/pawn/a.pwn"]).events
          = [(2, argv, "/sdcard/pawn", r)]) ∧
    chdirCalls (beforeCompile (nativeCompile sampleHost sampleState
        [some "pawncc", some "/sdcard/pawn/a.pwn"]).events) = [("/sdcard/pawn", true)] :=
  (nativeCompile_compiles_in_source_dir sampleHost sampleState
    [some "pawncc", some "/sdcard/pawn/a.pwn"] (by decide)).1
    "/sdcard/pawn/a.pwn" (by decide) (by decide) (by decide)

/-- C6: for an array of non-null strings with at least two elements whose last element
is `p`, when `chdir(dirname(p))` fails, `nativeCompile` logs the error
`Failed to chdir to <dirname(p)>`, returns normally, and calls `pc_compile` exactly
once, with the whole argument vector, in the caller's working directory. -/
theorem nativeCompile_bad_directory (host : Host) (st : State) (args : List JString)
    (hnn : ∀ a ∈ args, a ≠ none) (p : String) (h2 : 2 ≤ args.length)
    (hlast : args.getLast? = some (some p))
    (hfail : host.chdirOk st.cwd (host.dirname p) = false) :
    ∃ argv r,
      errorLogs (nativeCompile host st args).events
        = ["Failed to chdir to " ++ host.dirname p] ∧
      (nativeCompile host st args).ret = .returned r ∧
      pcCalls (nativeCompile host st args).events = [(args.length, argv, st.cwd, r)] ∧
      argv.map some = args := by
  obtain ⟨argv, rfl⟩ := strings_of_nonnull args hnn
  have hp := getLast_strings argv p hlast
  rw [List.length_map] at h2
  have hfail2 : host.chdirOk st.cwd (host.dirname (argv[argv.length - 1]?.getD "")) = false := by
    rw [hp]; exact hfail
  have he := enterSourceDir_fail host st.cwd argv.length argv (by omega) hfail2
  rw [hp] at he
  rw [nativeCompile_strings]
  simp only [List.length_map, pcCalls_append, pcCalls_marshalCalls, pcCalls_restoreCwd,
    errorLogs_append, errorLogs_marshalCalls, errorLogs_restoreCwd,
    List.nil_append, List.append_nil, he]
  exact ⟨argv, _, rfl, rfl, rfl, rfl⟩

/-- C6 at a concrete call whose source directory does not exist. -/
theorem nativeCompile_bad_directory_witness :
    ∃ argv r,
      errorLogs (nativeCompile sampleHost sampleState
          [some "pawncc", some "/nowhere/a.pwn"]).events
        = ["Failed to chdir to " ++ sampleHost.dirname "/nowhere/a.pwn"] ∧
      (nativeCompile sampleHost sampleState [some "pawncc", some "/nowhere/a.pwn"]).ret
        = .returned r ∧
      pcCalls (nativeCompile sampleHost sampleState
          [some "pawncc", some "/nowhere/a.pwn"]).events
        = [([some "pawncc", some "/nowhere/a.pwn"].length, argv, sampleState.cwd, r)] ∧
      argv.map some = [some "pawncc", some "/nowhere/a.pwn"] :=
  nativeCompile_bad_directory sampleHost sampleState [some "pawncc", some "/nowhere/a.pwn"]
    (by decide) "/nowhere/a.pwn" (by decide) (by decide) (by decide)

/-- C7, what the code does: for every argument array with a null element the conversion
loop hands the null string to `strdup`; the call ends in a null dereference, nothing is
logged at error priority, the compiler is never called and no status code is returned. -/
theorem nativeCompile_null_element (host : Host) (st : State) (args : List JString)
    (h : none ∈ args) :
    (nativeCompile host st args).ret = .crashed .nullDereference ∧
    errorLogs (nativeCompile host st args).events = [] ∧
    pcCalls (nativeCompile host st args).events = [] := by
  obtain ⟨j, hj, hjn⟩ := List.getElem_of_mem h
  have hel : GetObjectArrayElement args j = none := by
    simp only [GetObjectArrayElement, List.getElem?_eq_getElem hj, hjn]
    rfl
  have hcrash := fillArgv_crashes args args.length 0 [] j (Nat.zero_le _) (by omega) hel
  have hp := pcCalls_fillArgv args args.length 0 []
  have he := errorLogs_fillArgv args args.length 0 []
  unfold nativeCompile
  rcases hf : fillArgv args args.length 0 [] with ⟨ev0, r0⟩
  rw [hf] at hcrash hp he
  simp only at hcrash hp he
  subst hcrash
  simp only [hf]
  exact ⟨trivial, he, hp⟩

/-- C7 at a concrete call: the second of two elements is null. -/
theorem nativeCompile_null_element_witness :
    (nativeCompile sampleHost sampleState [some "pawncc", none]).ret
      = .crashed .nullDereference ∧
    errorLogs (nativeCompile sampleHost sampleState [some "pawncc", none]).events = [] ∧
    pcCalls (nativeCompile sampleHost sampleState [some "pawncc", none]).events = [] :=
  nativeCompile_null_element sampleHost sampleState [some "pawncc", none] (by decide)

/-! ## Clearing the listeners -/

theorem releasedRefs_append (a b : List Event) :
    releasedRefs (a ++ b) = releasedRefs a ++ releasedRefs b := by
  simp [releasedRefs]

theorem createdRefs_append (a b : List Event) :
    createdRefs (a ++ b) = createdRefs a ++ createdRefs b := by
  simp [createdRefs]

theorem releasedRefs_releaseSlot (globals : List jobject) (slot : Option jobject) :
    releasedRefs (releaseSlot globals slot).1 = slot.toList := by
  cases slot <;> rfl

/-- C4: `nativeClearCallbacks` issues one `DeleteGlobalRef` for each non-null listener
slot, on the reference the slot holds, and none for an empty slot; it leaves both
slots and both cached method identifiers null; a second `nativeClearCallbacks` right
after it issues no `DeleteGlobalRef`. -/
theorem nativeClearCallbacks_releases_once (st : State) :
    releasedRefs (nativeClearCallbacks st).1
      = st.g_outputListener.toList ++ st.g_errorListener.toList ∧
    (nativeClearCallbacks st).2.g_outputListener = none ∧
    (nativeClearCallbacks st).2.g_errorListener = none ∧
    (nativeClearCallbacks st).2.g_outputMethod = none ∧
    (nativeClearCallbacks st).2.g_errorMethod = none ∧
    releasedRefs (nativeClearCallbacks (nativeClearCallbacks st).2).1 = [] := by
  have h : ∀ s : State, releasedRefs (nativeClearCallbacks s).1
      = s.g_outputListener.toList ++ s.g_errorListener.toList := by
    intro s
    simp only [nativeClearCallbacks, releasedRefs_append, releasedRefs_releaseSlot]
    rfl
  refine ⟨h st, rfl, rfl, rfl, rfl, ?_⟩
  rw [h]
  rfl

/-! ## `getJNIEnv` and the relay callbacks -/

theorem methodCalls_append (a b : List Event) :
    methodCalls (a ++ b) = methodCalls a ++ methodCalls b := by
  simp [methodCalls]

/-- The three shapes of a `getJNIEnv` run. -/
theorem getJNIEnv_cases (host : Host) (st : State) :
    (st.g_jvm = none ∧ getJNIEnv host st = ([], st, none)) ∨
    (∃ vm, st.g_jvm = some vm ∧
      (GetEnv host st.thread JNI_VERSION_1_6).1 = JNI_EDETACHED ∧
      getJNIEnv host st =
        ([.getEnv vm JNI_VERSION_1_6 JNI_EDETACHED, .attachCurrentThread vm host.attachEnv],
          { st with thread := host.attachEnv }, host.attachEnv)) ∨
    (∃ vm, st.g_jvm = some vm ∧
      (GetEnv host st.thread JNI_VERSION_1_6).1 ≠ JNI_EDETACHED ∧
      getJNIEnv host st =
        ([.getEnv vm JNI_VERSION_1_6 (GetEnv host st.thread JNI_VERSION_1_6).1], st,
          (GetEnv host st.thread JNI_VERSION_1_6).2)) := by
  cases hvm : st.g_jvm with
  | none => left; simp [getJNIEnv, hvm]
  | some vm =>
    right
    by_cases hs : (GetEnv host st.thread JNI_VERSION_1_6).1 = JNI_EDETACHED
    · left
      refine ⟨vm, rfl, hs, ?_⟩
      simp only [getJNIEnv, hvm, hs, if_true]
    · right
      refine ⟨vm, rfl, hs, ?_⟩
      simp only [getJNIEnv, hvm, hs, if_false]

theorem getEnv_attached (host : Host) (e : JNIEnv) (v : Nat) :
    (GetEnv host (some e) v).1 ≠ JNI_EDETACHED := by
  cases h : host.supportsVersion v <;> simp [GetEnv, h, JNI_EDETACHED, JNI_OK, JNI_EVERSION]

theorem getJNIEnv_statics (host : Host) (st : State) :
    (getJNIEnv host st).2.1.g_outputListener = st.g_outputListener ∧
    (getJNIEnv host st).2.1.g_outputMethod = st.g_outputMethod ∧
    (getJNIEnv host st).2.1.g_errorListener = st.g_errorListener ∧
    (getJNIEnv host st).2.1.g_errorMethod = st.g_errorMethod ∧
    methodCalls (getJNIEnv host st).1 = [] ∧
    detachCalls (getJNIEnv host st).1 = [] ∧
    (st.thread ≠ none → (getJNIEnv host st).2.1.thread = st.thread) := by
  rcases getJNIEnv_cases host st with ⟨_, h⟩ | ⟨vm, _, hs, h⟩ | ⟨vm, _, _, h⟩
  · rw [h]; exact ⟨rfl, rfl, rfl, rfl, rfl, rfl, fun _ => rfl⟩
  · rw [h]
    refine ⟨rfl, rfl, rfl, rfl, rfl, rfl, ?_⟩
    intro hth
    cases hthr : st.thread with
    | none => exact absurd hthr hth
    | some e => rw [hthr] at hs; exact absurd hs (getEnv_attached host e _)
  · rw [h]; exact ⟨rfl, rfl, rfl, rfl, rfl, rfl, fun _ => rfl⟩

theorem nativeOutputCallback_calls (host : Host) (st : State) (message : Option String) :
    methodCalls (nativeOutputCallback host st message).1 =
      match (getJNIEnv host st).2.2, st.g_outputListener, st.g_outputMethod with
      | some _, some l, some m => [(l, m, [.str (some (message.getD ""))])]
      | _, _, _ => [] := by
  obtain ⟨h1, h2, -, -, h5, -, -⟩ := getJNIEnv_statics host st
  unfold nativeOutputCallback
  rcases hg : getJNIEnv host st with ⟨ev, st1, env⟩
  rw [hg] at h1 h2 h5
  simp only at h1 h2 h5
  simp only [h1, h2]
  cases env <;> cases st.g_outputListener <;> cases st.g_outputMethod <;>
    simp only [methodCalls_append, h5, List.nil_append]
  rfl

theorem nativeErrorCallback_calls (host : Host) (st : State) (number : Int)
    (filename : Option String) (firstline lastline : Int) (message : Option String) :
    methodCalls (nativeErrorCallback host st number filename firstline lastline message).1 =
      match (getJNIEnv host st).2.2, st.g_errorListener, st.g_errorMethod with
      | some _, some l, some m =>
        [(l, m, [.int number, .str (some (filename.getD "")), .int firstline,
                 .int lastline, .str (some (message.getD ""))])]
      | _, _, _ => [] := by
  obtain ⟨-, -, h1, h2, h5, -, -⟩ := getJNIEnv_statics host st
  unfold nativeErrorCallback
  rcases hg : getJNIEnv host st with ⟨ev, st1, env⟩
  rw [hg] at h1 h2 h5
  simp only at h1 h2 h5
  simp only [h1, h2]
  cases env <;> cases st.g_errorListener <;> cases st.g_errorMethod <;>
    simp only [methodCalls_append, h5, List.nil_append]
  rfl

/-- C8: while a runtime environment is available and the listener slot and its cached
method identifier are set, a relay callback invokes the listener method exactly once:
`nativeOutputCallback` with the message, `nativeErrorCallback` with number, filename,
firstline, lastline and message in that order, the integers unchanged and a null string
replaced by the empty string.  When the slot or the cached method identifier is null,
in particular after the listener was set to null or the callbacks were cleared, no
listener method is invoked. -/
theorem relay_callbacks_faithful (host : Host) (st : State) :
    (∀ message env l m, (getJNIEnv host st).2.2 = some env →
      st.g_outputListener = some l → st.g_outputMethod = some m →
      methodCalls (nativeOutputCallback host st message).1
        = [(l, m, [.str (some (message.getD ""))])]) ∧
    (∀ number filename firstline lastline message env l m,
      (getJNIEnv host st).2.2 = some env →
      st.g_errorListener = some l → st.g_errorMethod = some m →
      methodCalls (nativeErrorCallback host st number filename firstline lastline message).1
        = [(l, m, [.int number, .str (some (filename.getD "")), .int firstline,
                   .int lastline, .str (some (message.getD ""))])]) ∧
    (∀ message, st.g_outputListener = none ∨ st.g_outputMethod = none →
      methodCalls (nativeOutputCallback host st message).1 = []) ∧
    (∀ number filename firstline lastline message,
      st.g_errorListener = none ∨ st.g_errorMethod = none →
      methodCalls (nativeErrorCallback host st number filename firstline lastline message).1
        = []) ∧
    (∀ message,
      methodCalls (nativeOutputCallback host
        (nativeSetOutputCallback host st none).2 message).1 = [] ∧
      methodCalls (nativeOutputCallback host (nativeClearCallbacks st).2 message).1 = []) ∧
    (∀ number filename firstline lastline message,
      methodCalls (nativeErrorCallback host (nativeSetErrorCallback host st none).2
        number filename firstline lastline message).1 = [] ∧
      methodCalls (nativeErrorCallback host (nativeClearCallbacks st).2
        number filename firstline lastline message).1 = []) := by
  have hout : ∀ (s : State) message, s.g_outputListener = none ∨ s.g_outputMethod = none →
      methodCalls (nativeOutputCallback host s message).1 = [] := by
    intro s message h
    rw [nativeOutputCallback_calls]
    rcases h with h | h <;> rw [h] <;>
      cases (getJNIEnv host s).2.2 <;> cases s.g_outputListener <;> rfl
  have herr : ∀ (s : State) number filename firstline lastline message,
      s.g_errorListener = none ∨ s.g_errorMethod = none →
      methodCalls (nativeErrorCallback host s number filename firstline lastline message).1
        = [] := by
    intro s number filename firstline lastline message h
    rw [nativeErrorCallback_calls]
    rcases h with h | h <;> rw [h] <;>
      cases (getJNIEnv host s).2.2 <;> cases s.g_errorListener <;> rfl
  refine ⟨?_, ?_, hout st, herr st, ?_, ?_⟩
  · intro message env l m he hl hm
    rw [nativeOutputCallback_calls, he, hl, hm]
  · intro number filename firstline lastline message env l m he hl hm
    rw [nativeErrorCallback_calls, he, hl, hm]
  · intro message
    refine ⟨hout _ _ (Or.inl ?_), hout _ _ (Or.inl rfl)⟩
    simp only [nativeSetOutputCallback]
  · intro number filename firstline lastline message
    refine ⟨herr _ _ _ _ _ _ (Or.inl ?_), herr _ _ _ _ _ _ (Or.inl rfl)⟩
    simp only [nativeSetErrorCallback]

/-- C8 at a concrete call: an error report with a null filename reaches the registered
error listener once, with the empty string as filename. -/
theorem relay_callbacks_faithful_witness :
    methodCalls (nativeErrorCallback sampleHost (sampleListening sampleState)
        17 none 3 4 (some "undefined symbol")).1
      = [(2, 48, [.int 17, .str (some ((none : Option String).getD "")), .int 3, .int 4,
                  .str (some ((some "undefined symbol").getD ""))])] :=
  (relay_callbacks_faithful sampleHost (sampleListening sampleState)).2.1
    17 none 3 4 (some "undefined symbol") 3 2 48 (by decide) (by decide) (by decide)

/-! ## Thread attachment -/

theorem detachCalls_append (a b : List Event) :
    detachCalls (a ++ b) = detachCalls a ++ detachCalls b := by
  simp [detachCalls]

theorem detachCalls_fillArgv (args : List JString) :
    ∀ (n i : Nat) (acc : List String), detachCalls (fillArgv args n i acc).1 = [] := by
  intro n
  induction n with
  | zero => intro i acc; rfl
  | succ n ih =>
    intro i acc
    cases hs : strdup (GetStringUTFChars (GetObjectArrayElement args i)) with
    | crashed f => simp only [fillArgv, hs]; rfl
    | returned s =>
      have := ih (i + 1) (acc ++ [s])
      simp only [fillArgv, hs, detachCalls_append, this]
      rfl

theorem detachCalls_enterSourceDir (host : Host) (cwd : String) (argc : Nat)
    (argv : List String) : detachCalls (enterSourceDir host cwd argc argv).1 = [] := by
  by_cases h : 1 < argc
  · cases hok : host.chdirOk cwd (host.dirname (argv[argc - 1]?.getD ""))
    · rw [enterSourceDir_fail host cwd argc argv h hok]; rfl
    · rw [enterSourceDir_ok host cwd argc argv h hok]; rfl
  · rw [enterSourceDir_short host cwd argc argv (Nat.not_lt.mp h)]; rfl

theorem detachCalls_restoreCwd (host : Host) (cwd : String) (old : Option String) :
    detachCalls (restoreCwd host cwd old).1 = [] := by
  cases old <;> rfl

theorem nativeCompile_thread (host : Host) (st : State) (args : List JString) :
    detachCalls (nativeCompile host st args).events = [] ∧
    (nativeCompile host st args).state.thread = st.thread := by
  have hfill := detachCalls_fillArgv args args.length 0 []
  unfold nativeCompile
  rcases hf : fillArgv args args.length 0 [] with ⟨ev0, r0⟩
  rw [hf] at hfill
  cases r0 with
  | crashed f => simp only [hf]; exact ⟨hfill, trivial⟩
  | returned argv =>
    simp only [hf]
    refine ⟨?_, trivial⟩
    simp only [detachCalls_append, show detachCalls ev0 = [] from hfill,
      detachCalls_enterSourceDir, detachCalls_restoreCwd, List.nil_append, List.append_nil]
    rfl

theorem detachCalls_releaseSlot (globals : List jobject) (slot : Option jobject) :
    detachCalls (releaseSlot globals slot).1 = [] := by
  cases slot <;> rfl

theorem setOutput_thread (host : Host) (st : State) (listener : Option jobject) :
    detachCalls (nativeSetOutputCallback host st listener).1 = [] ∧
    (nativeSetOutputCallback host st listener).2.thread = st.thread := by
  cases listener <;>
    simp only [nativeSetOutputCallback, detachCalls_append, detachCalls_releaseSlot,
      List.nil_append] <;> constructor <;> first | rfl | trivial

theorem setError_thread (host : Host) (st : State) (listener : Option jobject) :
    detachCalls (nativeSetErrorCallback host st listener).1 = [] ∧
    (nativeSetErrorCallback host st listener).2.thread = st.thread := by
  cases listener <;>
    simp only [nativeSetErrorCallback, detachCalls_append, detachCalls_releaseSlot,
      List.nil_append] <;> constructor <;> first | rfl | trivial

theorem clear_thread (st : State) :
    detachCalls (nativeClearCallbacks st).1 = [] ∧
    (nativeClearCallbacks st).2.thread = st.thread := by
  simp only [nativeClearCallbacks, detachCalls_append, detachCalls_releaseSlot,
    List.append_nil]
  constructor <;> first | rfl | trivial

theorem outputCallback_thread (host : Host) (st : State) (message : Option String) :
    detachCalls (nativeOutputCallback host st message).1 = [] ∧
    (st.thread ≠ none → (nativeOutputCallback host st message).2.thread = st.thread) := by
  obtain ⟨-, -, -, -, -, h6, h7⟩ := getJNIEnv_statics host st
  unfold nativeOutputCallback
  rcases hg : getJNIEnv host st with ⟨ev, st1, env⟩
  rw [hg] at h6 h7
  simp only at h6 h7
  dsimp only
  cases env <;> cases st1.g_outputListener <;> cases st1.g_outputMethod <;>
    simp only [detachCalls_append, h6, List.nil_append] <;>
    first | exact ⟨rfl, h7⟩ | exact ⟨trivial, h7⟩

theorem errorCallback_thread (host : Host) (st : State) (number : Int)
    (filename : Option String) (firstline lastline : Int) (message : Option String) :
    detachCalls (nativeErrorCallback host st number filename firstline lastline message).1
      = [] ∧
    (st.thread ≠ none →
      (nativeErrorCallback host st number filename firstline lastline message).2.thread
        = st.thread) := by
  obtain ⟨-, -, -, -, -, h6, h7⟩ := getJNIEnv_statics host st
  unfold nativeErrorCallback
  rcases hg : getJNIEnv host st with ⟨ev, st1, env⟩
  rw [hg] at h6 h7
  simp only at h6 h7
  dsimp only
  cases env <;> cases st1.g_errorListener <;> cases st1.g_errorMethod <;>
    simp only [detachCalls_append, h6, List.nil_append] <;>
    first | exact ⟨rfl, h7⟩ | exact ⟨trivial, h7⟩

/-- C9: `getJNIEnv` calls `AttachCurrentThread` exactly when `g_jvm` is set and `GetEnv`
reports `JNI_EDETACHED`, and then once; it makes no attach call for a thread that is
attached already, nor when `g_jvm` is null, where it returns a null environment; on a
detached thread with `g_jvm` set the thread gets the environment the attach call
wrote.  No entry point of the bridge calls `DetachCurrentThread`, and an attached
thread is still attached, with the same environment, after every entry point. -/
theorem getJNIEnv_attaches_on_demand (host : Host) (st : State) :
    ((attachCalls (getJNIEnv host st).1).length = 1 ↔
      (st.g_jvm ≠ none ∧ (GetEnv host st.thread JNI_VERSION_1_6).1 = JNI_EDETACHED)) ∧
    (attachCalls (getJNIEnv host st).1).length ≤ 1 ∧
    (st.thread ≠ none → attachCalls (getJNIEnv host st).1 = []) ∧
    (st.g_jvm = none →
      attachCalls (getJNIEnv host st).1 = [] ∧ (getJNIEnv host st).2.2 = none) ∧
    (st.g_jvm ≠ none → st.thread = none →
      (getJNIEnv host st).2.1.thread = host.attachEnv ∧
      (getJNIEnv host st).2.2 = host.attachEnv) ∧
    (∀ op, detachCalls (step host st op).1 = []) ∧
    (∀ op, st.thread ≠ none → (step host st op).2.thread = st.thread) := by
  refine ⟨?_, ?_, ?_, ?_, ?_, ?_, ?_⟩
  · rcases getJNIEnv_cases host st with ⟨hvm, h⟩ | ⟨vm, hvm, hs, h⟩ | ⟨vm, hvm, hs, h⟩
    · rw [h]; simp [attachCalls, hvm]
    · rw [h]; simp [attachCalls, hvm, hs]
    · rw [h]; simp [attachCalls, hs]
  · rcases getJNIEnv_cases host st with ⟨hvm, h⟩ | ⟨vm, hvm, hs, h⟩ | ⟨vm, hvm, hs, h⟩ <;>
      rw [h] <;> simp [attachCalls]
  · intro hth
    rcases getJNIEnv_cases host st with ⟨hvm, h⟩ | ⟨vm, hvm, hs, h⟩ | ⟨vm, hvm, hs, h⟩
    · rw [h]; rfl
    · cases hthr : st.thread with
      | none => exact absurd hthr hth
      | some e => rw [hthr] at hs; exact absurd hs (getEnv_attached host e _)
    · rw [h]; rfl
  · intro hvm
    simp [getJNIEnv, hvm, attachCalls]
  · intro hvm hth
    rcases getJNIEnv_cases host st with ⟨hvm2, h⟩ | ⟨vm, hvm2, hs, h⟩ | ⟨vm, hvm2, hs, h⟩
    · exact absurd hvm2 hvm
    · rw [h]; exact ⟨rfl, rfl⟩
    · rw [hth] at hs; exact absurd rfl hs
  · intro op
    cases op with
    | JNI_OnLoad vm => rfl
    | nativeCompile args => exact (nativeCompile_thread host st args).1
    | nativeSetOutputCallback l => exact (setOutput_thread host st l).1
    | nativeSetErrorCallback l => exact (setError_thread host st l).1
    | nativeClearCallbacks => exact (clear_thread st).1
    | nativeOutputCallback m => exact (outputCallback_thread host st m).1
    | nativeErrorCallback n f fl ll m => exact (errorCallback_thread host st n f fl ll m).1
  · intro op hth
    cases op with
    | JNI_OnLoad vm => rfl
    | nativeCompile args => exact (nativeCompile_thread host st args).2
    | nativeSetOutputCallback l => exact (setOutput_thread host st l).2
    | nativeSetErrorCallback l => exact (setError_thread host st l).2
    | nativeClearCallbacks => exact (clear_thread st).2
    | nativeOutputCallback m => exact (outputCallback_thread host st m).2 hth
    | nativeErrorCallback n f fl ll m =>
      exact (errorCallback_thread host st n f fl ll m).2 hth

/-- C9 at a concrete call: a callback arriving on a detached thread attaches it. -/
theorem getJNIEnv_attaches_on_demand_witness :
    (getJNIEnv sampleHost { sampleState with thread := none }).2.1.thread
      = sampleHost.attachEnv ∧
    (getJNIEnv sampleHost { sampleState with thread := none }).2.2 = sampleHost.attachEnv :=
  (getJNIEnv_attaches_on_demand sampleHost { sampleState with thread := none }).2.2.2.2.1
    (by decide) (by decide)

/-! ## Balance of global references -/

theorem le_foldr_max (g : List jobject) : ∀ x ∈ g, x ≤ g.foldr max 0 := by
  induction g with
  | nil => intro x hx; cases hx
  | cons a g ih =>
    intro x hx
    simp only [List.foldr_cons]
    rcases List.mem_cons.mp hx with rfl | hx
    · exact Nat.le_max_left _ _
    · exact Nat.le_trans (ih x hx) (Nat.le_max_right _ _)

theorem freshRef_not_mem (g : List jobject) : freshRef g ∉ g := by
  intro h
  exact Nat.not_succ_le_self _ (le_foldr_max g _ h)

/-- Releasing a slot whose reference the runtime holds. -/
theorem releaseSlot_held (globals : List jobject) (a : jobject) (h : a ∈ globals) :
    releaseSlot globals (some a) = ([.deleteGlobalRef a true], globals.erase a) := by
  simp [releaseSlot, DeleteGlobalRef, h]

theorem releasesHeld_append (a b : List Event) (ha : ReleasesHeld a) (hb : ReleasesHeld b) :
    ReleasesHeld (a ++ b) := by
  intro ref held h
  rcases List.mem_append.mp h with h | h
  · exact ha ref held h
  · exact hb ref held h

theorem setOutput_balanced (host : Host) (st : State) (l : Option jobject)
    (h : SlotsHeld st) :
    SlotsHeld (nativeSetOutputCallback host st l).2 ∧
    (createdRefs (nativeSetOutputCallback host st l).1).length + heldSlots st
      = (releasedRefs (nativeSetOutputCallback host st l).1).length
        + heldSlots (nativeSetOutputCallback host st l).2 ∧
    ReleasesHeld (nativeSetOutputCallback host st l).1 := by
  obtain ⟨h1, h2, h3⟩ := h
  cases ho : st.g_outputListener with
  | none =>
    cases l with
    | none =>
      simp [nativeSetOutputCallback, ho, releaseSlot, SlotsHeld, heldSlots, createdRefs,
        releasedRefs, ReleasesHeld]
      exact h2
    | some l =>
      by_cases hroom : st.globals.length < host.maxGlobalRefs
      · simp [nativeSetOutputCallback, ho, releaseSlot, SlotsHeld, heldSlots, createdRefs,
          releasedRefs, ReleasesHeld, NewGlobalRef, hroom]
        refine ⟨fun r hr => Or.inr (h2 r hr), ?_⟩
        intro x y hx hy hxy
        subst hx; subst hxy
        exact freshRef_not_mem _ (h2 _ hy)
      · simp [nativeSetOutputCallback, ho, releaseSlot, SlotsHeld, heldSlots, createdRefs,
          releasedRefs, ReleasesHeld, NewGlobalRef, hroom]
        exact h2
  | some a =>
    have ha := h1 a ho
    have hE : ∀ r, st.g_errorListener = some r → r ∈ st.globals.erase a :=
      fun r hr => (List.mem_erase_of_ne (h3 a r ho hr).symm).mpr (h2 r hr)
    cases l with
    | none =>
      simp [nativeSetOutputCallback, ho, releaseSlot_held _ _ ha, SlotsHeld, heldSlots,
        createdRefs, releasedRefs, ReleasesHeld]
      exact hE
    | some l =>
      by_cases hroom : (st.globals.erase a).length < host.maxGlobalRefs
      · simp [nativeSetOutputCallback, ho, releaseSlot_held _ _ ha, SlotsHeld, heldSlots,
          createdRefs, releasedRefs, ReleasesHeld, NewGlobalRef, hroom]
        refine ⟨fun r hr => Or.inr (hE r hr), ?_⟩
        intro x y hx hy hxy
        subst hx; subst hxy
        exact freshRef_not_mem _ (hE _ hy)
      · simp [nativeSetOutputCallback, ho, releaseSlot_held _ _ ha, SlotsHeld, heldSlots,
          createdRefs, releasedRefs, ReleasesHeld, NewGlobalRef, hroom]
        exact hE

theorem setError_balanced (host : Host) (st : State) (l : Option jobject)
    (h : SlotsHeld st) :
    SlotsHeld (nativeSetErrorCallback host st l).2 ∧
    (createdRefs (nativeSetErrorCallback host st l).1).length + heldSlots st
      = (releasedRefs (nativeSetErrorCallback host st l).1).length
        + heldSlots (nativeSetErrorCallback host st l).2 ∧
    ReleasesHeld (nativeSetErrorCallback host st l).1 := by
  obtain ⟨h1, h2, h3⟩ := h
  have hfresh : ∀ g : List jobject, (∀ r, st.g_outputListener = some r → r ∈ g) →
      ∀ x, st.g_outputListener = some x → ¬ x = freshRef g := by
    intro g hg x hx hxy
    subst hxy
    exact freshRef_not_mem _ (hg _ hx)
  cases ho : st.g_errorListener with
  | none =>
    cases l with
    | none =>
      simp [nativeSetErrorCallback, ho, releaseSlot, SlotsHeld, heldSlots, createdRefs,
        releasedRefs, ReleasesHeld]
      exact h1
    | some l =>
      by_cases hroom : st.globals.length < host.maxGlobalRefs
      · simp [nativeSetErrorCallback, ho, releaseSlot, SlotsHeld, heldSlots, createdRefs,
          releasedRefs, ReleasesHeld, NewGlobalRef, hroom]
        exact ⟨⟨fun r hr => Or.inr (h1 r hr), hfresh _ h1⟩, by omega⟩
      · simp [nativeSetErrorCallback, ho, releaseSlot, SlotsHeld, heldSlots, createdRefs,
          releasedRefs, ReleasesHeld, NewGlobalRef, hroom]
        exact h1
  | some a =>
    have ha := h2 a ho
    have hE : ∀ r, st.g_outputListener = some r → r ∈ st.globals.erase a :=
      fun r hr => (List.mem_erase_of_ne (h3 r a hr ho)).mpr (h1 r hr)
    cases l with
    | none =>
      simp [nativeSetErrorCallback, ho, releaseSlot_held _ _ ha, SlotsHeld, heldSlots,
        createdRefs, releasedRefs, ReleasesHeld]
      exact ⟨hE, by omega⟩
    | some l =>
      by_cases hroom : (st.globals.erase a).length < host.maxGlobalRefs
      · simp [nativeSetErrorCallback, ho, releaseSlot_held _ _ ha, SlotsHeld, heldSlots,
          createdRefs, releasedRefs, ReleasesHeld, NewGlobalRef, hroom]
        exact ⟨fun r hr => Or.inr (hE r hr), hfresh _ hE⟩
      · simp [nativeSetErrorCallback, ho, releaseSlot_held _ _ ha, SlotsHeld, heldSlots,
          createdRefs, releasedRefs, ReleasesHeld, NewGlobalRef, hroom]
        exact ⟨hE, by omega⟩

theorem releaseSlot_none (globals : List jobject) :
    releaseSlot globals none = ([], globals) := rfl

theorem clear_balanced (st : State) (h : SlotsHeld st) :
    SlotsHeld (nativeClearCallbacks st).2 ∧
    (createdRefs (nativeClearCallbacks st).1).length + heldSlots st
      = (releasedRefs (nativeClearCallbacks st).1).length
        + heldSlots (nativeClearCallbacks st).2 ∧
    ReleasesHeld (nativeClearCallbacks st).1 := by
  obtain ⟨h1, h2, h3⟩ := h
  cases ho : st.g_outputListener with
  | none =>
    cases he : st.g_errorListener with
    | none =>
      simp [nativeClearCallbacks, ho, he, releaseSlot_none, SlotsHeld, heldSlots,
        createdRefs, releasedRefs, ReleasesHeld]
    | some b =>
      simp [nativeClearCallbacks, ho, he, releaseSlot_none, releaseSlot_held _ _ (h2 b he),
        SlotsHeld, heldSlots, createdRefs, releasedRefs, ReleasesHeld]
  | some a =>
    cases he : st.g_errorListener with
    | none =>
      simp [nativeClearCallbacks, ho, he, releaseSlot_none, releaseSlot_held _ _ (h1 a ho),
        SlotsHeld, heldSlots, createdRefs, releasedRefs, ReleasesHeld]
    | some b =>
      have hb : b ∈ st.globals.erase a :=
        (List.mem_erase_of_ne (h3 a b ho he).symm).mpr (h2 b he)
      simp [nativeClearCallbacks, ho, he, releaseSlot_held _ _ (h1 a ho),
        releaseSlot_held _ _ hb, SlotsHeld, heldSlots, createdRefs, releasedRefs,
        ReleasesHeld]

theorem step_balanced (host : Host) (st : State) (op : ListenerOp) (h : SlotsHeld st) :
    SlotsHeld (step host st op.toOp).2 ∧
    (createdRefs (step host st op.toOp).1).length + heldSlots st
      = (releasedRefs (step host st op.toOp).1).length + heldSlots (step host st op.toOp).2 ∧
    ReleasesHeld (step host st op.toOp).1 := by
  cases op with
  | setOutput l => exact setOutput_balanced host st l h
  | setError l => exact setError_balanced host st l h
  | clear => exact clear_balanced st h

theorem runListenerOps_balanced (host : Host) (ops : List ListenerOp) :
    ∀ st, SlotsHeld st →
      SlotsHeld (runListenerOps host st ops).2 ∧
      (createdRefs (runListenerOps host st ops).1).length + heldSlots st
        = (releasedRefs (runListenerOps host st ops).1).length
          + heldSlots (runListenerOps host st ops).2 ∧
      ReleasesHeld (runListenerOps host st ops).1 := by
  induction ops with
  | nil =>
    intro st h
    refine ⟨h, ?_, ?_⟩
    · simp [runListenerOps, createdRefs, releasedRefs]
    · intro ref held hmem
      cases hmem
  | cons op ops ih =>
    intro st h
    obtain ⟨s1, b1, r1⟩ := step_balanced host st op h
    obtain ⟨s2, b2, r2⟩ := ih _ s1
    simp only [runListenerOps, createdRefs_append, releasedRefs_append, List.length_append]
    refine ⟨s2, by omega, releasesHeld_append _ _ r1 r2⟩

theorem heldSlots_le_two (st : State) : heldSlots st ≤ 2 := by
  unfold heldSlots
  cases st.g_outputListener <;> cases st.g_errorListener <;> simp

/-- C10: from any state whose two listener slots are null, after every finite sequence of
`nativeSetOutputCallback`, `nativeSetErrorCallback` (with a null or non-null listener)
and `nativeClearCallbacks`, the number of global references created equals the number
released plus the number of non-null listener slots, which is at most two; every
`DeleteGlobalRef` issued was given a reference the runtime held at that moment, so
none is released twice; and a set operation leaves the other listener slot and its
method identifier as they were. -/
theorem listener_refs_balanced (host : Host) (st0 : State)
    (hout : st0.g_outputListener = none) (herr : st0.g_errorListener = none)
    (ops : List ListenerOp) :
    (createdRefs (runListenerOps host st0 ops).1).length
      = (releasedRefs (runListenerOps host st0 ops).1).length
        + heldSlots (runListenerOps host st0 ops).2 ∧
    heldSlots (runListenerOps host st0 ops).2 ≤ 2 ∧
    (∀ ref held, Event.deleteGlobalRef ref held ∈ (runListenerOps host st0 ops).1 →
      held = true) ∧
    (∀ st l,
      (nativeSetOutputCallback host st l).2.g_errorListener = st.g_errorListener ∧
      (nativeSetOutputCallback host st l).2.g_errorMethod = st.g_errorMethod) ∧
    (∀ st l,
      (nativeSetErrorCallback host st l).2.g_outputListener = st.g_outputListener ∧
      (nativeSetErrorCallback host st l).2.g_outputMethod = st.g_outputMethod) := by
  have h0 : SlotsHeld st0 := by
    refine ⟨?_, ?_, ?_⟩
    · intro r hr; rw [hout] at hr; cases hr
    · intro r hr; rw [herr] at hr; cases hr
    · intro a b ha; rw [hout] at ha; cases ha
  have hs0 : heldSlots st0 = 0 := by simp [heldSlots, hout, herr]
  obtain ⟨-, hb, hr⟩ := runListenerOps_balanced host ops st0 h0
  refine ⟨by omega, heldSlots_le_two _, hr, ?_, ?_⟩
  · intro st l
    cases l <;> exact ⟨rfl, rfl⟩
  · intro st l
    cases l <;> exact ⟨rfl, rfl⟩

/-- C10 at a concrete sequence: both listeners registered, the output listener replaced,
the error listener set to null, then two clears. -/
theorem listener_refs_balanced_witness :
    (createdRefs (runListenerOps sampleHost sampleState
        [.setOutput (some 40), .setError (some 41), .setOutput (some 42),
         .setError none, .clear, .clear]).1).length
      = (releasedRefs (runListenerOps sampleHost sampleState
        [.setOutput (some 40), .setError (some 41), .setOutput (some 42),
         .setError none, .clear, .clear]).1).length
        + heldSlots (runListenerOps sampleHost sampleState
        [.setOutput (some 40), .setError (some 41), .setOutput (some 42),
         .setError none, .clear, .clear]).2 :=
  (listener_refs_balanced sampleHost sampleState rfl rfl
    [.setOutput (some 40), .setError (some 41), .setOutput (some 42),
     .setError none, .clear, .clear]).1

end PawnJni
